import Mathlib

/-!
# Verification of the USPA judge-test grading core

Shallow embedding, in Lean 4, of the scoring, reference-normalization,
access-resolution and verification-statistics logic of `app.py`
(`normalize_section_ref`, `submit_test`, `approve_reference`,
`get_proctor_tests`, and the stats block of `jwg_dashboard`).

Conventions of the embedding:
* Python strings are `List Char`; `str.strip`/`str.lower` are modelled over
  the ASCII whitespace set and ASCII lowercasing (`Char.toLower`), applied
  uniformly in all the places the source uses them.
* Python floats are modelled as exact rationals (`ℚ`); every number the
  grading engine manipulates (multiples of 0.5, and one-decimal roundings)
  is exactly representable, and `round(x, 1)` is modelled as one-decimal
  round-half-to-even (`pyRound1`), which is what CPython's `round` performs
  on these exactly-representable values.
* JSON dictionaries keyed by question id are modelled as total functions
  from the id (`answers.get(qid)` becomes an `Option Int`-valued function,
  `sections.get(qid, '')` a `List Char`-valued one); the string-keying of
  the request payload (`str(q['id'])`) is transparent to the logic.
* The SQLite store is modelled as a map `String → Option TestResult`; the
  route-level persistence of `approve_reference` is `approve_reference_route`.
-/

namespace JudgeTest

/-! ## Reference normalizer (`normalize_section_ref`, app.py lines 14-44) -/

/-- The whitespace class shared by `str.strip()` and the regex `\s`
(restricted to the ASCII range, per the embedding conventions). -/
def isPySpace (c : Char) : Bool :=
  c == ' ' || c == '\t' || c == '\n' || c == '\r' || c == '\x0b' || c == '\x0c'

/-- `re.sub(r'[–—−]', '-', s)`: en dash, em dash and minus sign become a hyphen. -/
def dashToHyphen (c : Char) : Char :=
  if c == '–' || c == '—' || c == '−' then '-' else c

/-- The character class of `re.sub(r'[\s.\-_]+', '', s)`: whitespace,
period, hyphen, underscore. -/
def removeSep (c : Char) : Bool :=
  isPySpace c || c == '.' || c == '-' || c == '_'

/-- The character set of `s.rstrip('.,;:')`. -/
def isTrailPunct (c : Char) : Bool :=
  c == '.' || c == ',' || c == ';' || c == ':'

/-- `str.rstrip` with an arbitrary character predicate. -/
def rstripBy (p : Char → Bool) (l : List Char) : List Char :=
  (l.reverse.dropWhile p).reverse

/-- `str.strip()`: drop whitespace from both ends. -/
def stripWS (l : List Char) : List Char :=
  rstripBy isPySpace (l.dropWhile isPySpace)

/-- `needle.isPrefixOf hay` as a plain boolean recursion (`str.startswith`). -/
def leadsWith : List Char → List Char → Bool
  | [], _ => true
  | _ :: _, [] => false
  | a :: as, b :: bs => a == b && leadsWith as bs

/-- The `prefixes` list of `normalize_section_ref`, in source order. -/
def LABELS : List (List Char) :=
  [['s','e','c','t','i','o','n'], ['s','e','c','.'], ['s','e','c'],
   ['c','h','.'], ['c','h'], ['c','h','a','p','t','e','r']]

/-- One iteration of the `for prefix in prefixes` loop:
`if s.startswith(prefix): s = s[len(prefix):].strip()`. -/
def stripOneLabel (s p : List Char) : List Char :=
  if leadsWith p s then stripWS (s.drop p.length) else s

/-- The whole label-stripping loop.  Note the source iterates over ALL
entries of the list in order (no `break`), so several labels can be removed
and an earlier shorter label shadows a later longer one. -/
def stripLabels (s : List Char) : List Char :=
  LABELS.foldl stripOneLabel s

/-- `normalize_section_ref` (app.py lines 14-44). -/
def normalize_section_ref (sec : List Char) : List Char :=
  if sec = [] then []
  else
    let s1 := (stripWS sec).map Char.toLower
    let s2 := stripLabels s1
    let s3 := s2.map dashToHyphen
    let s4 := s3.filter (fun c => !removeSep c)
    rstripBy isTrailPunct s4

example : normalize_section_ref "Section 8-1.3.1".toList = "8131".toList := by decide
example : normalize_section_ref "8.1.3.1".toList = "8131".toList := by decide
example : normalize_section_ref "SEC 8 1 3 1".toList = "8131".toList := by decide
example : normalize_section_ref "chapter 5".toList = "apter5".toList := by decide
example : normalize_section_ref "sec ch 5".toList = "5".toList := by decide
example : normalize_section_ref "s e c 5".toList = "sec5".toList := by decide
example : normalize_section_ref "1,2".toList = "1,2".toList := by decide

/-! ## Python `round(x, 1)` on the exactly-representable values of this app -/

/- Batteries marks the rational field operations irreducible, which blocks
the elaborator's evaluation of concrete scores; proofs by `decide` need them
unfolded. -/
attribute [local semireducible] Rat.add Rat.mul Rat.sub Rat.inv

/-- Round-half-to-even to the nearest integer, on exact rationals. -/
def roundHalfEven (x : ℚ) : ℤ :=
  let f := x.floor
  if x - f < 1/2 then f
  else if 1/2 < x - f then f + 1
  else if f % 2 = 0 then f else f + 1

/-- Python's `round(x, 1)`: one-decimal banker's rounding. -/
def pyRound1 (x : ℚ) : ℚ :=
  (roundHalfEven (x * 10) : ℚ) / 10

example : pyRound1 (225/4) = 281/5 := by decide
example : pyRound1 0 = 0 := by decide

/-! ## Data model (test definitions and stored result records) -/

/-- A question of a test (`questions` entries of the `tests` table). -/
structure Question where
  id : Int
  question : String
  options : List String
  correct : Int
  correct_section : List Char
  deriving Repr, DecidableEq

/-- A test definition (row of the `tests` table; the id is kept separate,
as in the source's `{test_id: {...}}` dictionaries). -/
structure Test where
  name : String
  chapter : String
  passing_score : Int
  questions : List Question
  deriving Repr, DecidableEq

/-- One per-question grading record, as appended to `results` in
`submit_test`; `section_approved_by` is the field that `approve_reference`
adds later (absent, i.e. `none`, at grading time). -/
structure QuestionResult where
  id : Int
  question : String
  user_answer : Option Int
  correct_answer : Int
  is_correct : Bool
  user_section : List Char
  correct_section : List Char
  is_section_correct : Bool
  question_points : ℚ
  options : List String
  section_approved_by : Option String
  deriving Repr, DecidableEq

/-- The stored result record (`save_test_result` payload in `submit_test`).
The wall-clock `timestamp` field is out of the embedding's scope. -/
structure TestResult where
  student : String
  username : String
  test_id : String
  test_name : String
  score : ℚ
  total_points : ℚ
  total_possible : ℚ
  total_questions : Nat
  passing_score : Int
  passed : Bool
  results : List QuestionResult
  deriving Repr, DecidableEq

/-! ## Grading engine (`submit_test`, app.py lines 535-618) -/

/-- The body of the grading loop of `submit_test` for one question.
`answers` and `sections` model `data['answers']` / `data['sections']`
lookups by question id (`answers.get(q_id)`, `sections.get(q_id, '')`);
an absent answer is `none`, and `None == q['correct']` is `False`. -/
def gradeQuestion (answers : Int → Option Int) (sections : Int → List Char)
    (q : Question) : QuestionResult :=
  let user_answer := answers q.id
  let user_section_raw := sections q.id
  let user_section_normalized := normalize_section_ref user_section_raw
  let correct_section_normalized := normalize_section_ref q.correct_section
  let is_correct := match user_answer with
    | some v => v == q.correct
    | none => false
  let is_section_correct := user_section_normalized == correct_section_normalized
  let question_points : ℚ :=
    (if is_correct then 7/2 else 0) + (if is_section_correct then 1/2 else 0)
  { id := q.id
    question := q.question
    user_answer := user_answer
    correct_answer := q.correct
    is_correct := is_correct
    user_section := user_section_raw
    correct_section := q.correct_section
    is_section_correct := is_section_correct
    question_points := question_points
    options := q.options
    section_approved_by := none }

/-- Sum of the `question_points` fields (the running `total_points`
accumulator of the grading loop, and the `sum(...)` of `approve_reference`). -/
def sumPoints (l : List QuestionResult) : ℚ :=
  (l.map QuestionResult.question_points).sum

/-- `submit_test` (app.py lines 535-618), restricted to its grading and
record-building core: the authorization, test-lookup and random-id steps
live outside the computation.  `score = round(total_points/total_possible
* 100, 1)`, `passed = score >= passing_score`. -/
def submit_test (test_id username student_name : String) (t : Test)
    (answers : Int → Option Int) (sections : Int → List Char) : TestResult :=
  let results := t.questions.map (gradeQuestion answers sections)
  let total_points := sumPoints results
  let total_possible : ℚ := (t.questions.length : ℚ) * 4
  let score := pyRound1 (total_points / total_possible * 100)
  let passed := decide (score ≥ (t.passing_score : ℚ))
  { student := student_name
    username := username
    test_id := test_id
    test_name := t.name
    score := score
    total_points := total_points
    total_possible := total_possible
    total_questions := t.questions.length
    passing_score := t.passing_score
    passed := passed
    results := results }

/-! ## Reference approval (`approve_reference`, app.py lines 647-704) -/

/-- The mutation the approval loop applies to the matched entry:
flag flipped, approver recorded, half a point added. -/
def approvedEntry (approver : String) (r : QuestionResult) : QuestionResult :=
  { r with is_section_correct := true
           section_approved_by := some approver
           question_points := r.question_points + 1/2 }

/-- The `for r in result['results']` loop of `approve_reference`: update the
FIRST entry with matching id whose `is_section_correct` is false
(then `break`); `none` when no entry matches (`updated` stays `False`). -/
def approveEntry (approver : String) (question_id : Int) :
    List QuestionResult → Option (List QuestionResult)
  | [] => none
  | r :: rest =>
    if r.id == question_id && !r.is_section_correct then
      some (approvedEntry approver r :: rest)
    else
      match approveEntry approver question_id rest with
      | some rest' => some (r :: rest')
      | none => none

/-- `approve_reference` (app.py lines 647-704), the core after request
parsing and the proctor-access check: guard on `passed`, update the first
matching entry, then recompute `total_points` as the sum of all entries'
points and `score`/`passed` by the grading formula, with `total_possible`
and `passing_score` read from the stored record. -/
def approve_reference (approver : String) (result : TestResult)
    (question_id : Int) : Except String TestResult :=
  if result.passed then
    Except.error "Can only approve references on non-passing tests"
  else
    match approveEntry approver question_id result.results with
    | none => Except.error "Question not found or already approved"
    | some results' =>
      let total_points := sumPoints results'
      let total_possible := result.total_possible
      let new_score := pyRound1 (total_points / total_possible * 100)
      let passing_score := result.passing_score
      Except.ok { result with
        results := results'
        total_points := total_points
        score := new_score
        passed := decide (new_score ≥ (passing_score : ℚ)) }

/-- The persistence step of the route: `save_test_result(result_id, result)`
on success, and no write at all on any error path. -/
def approve_reference_route (approver : String) (question_id : Int)
    (store : String → Option TestResult) (result_id : String) :
    String → Option TestResult :=
  match store result_id with
  | none => store
  | some result =>
    match approve_reference approver result question_id with
    | Except.error _ => store
    | Except.ok r' => fun x => if x = result_id then some r' else store x

/-! ## Access resolver (`get_proctor_tests`, app.py lines 419-449) -/

/-- A static category: display name and governed test ids
(the `CATEGORIES` constant of app.py). -/
structure Category where
  name : String
  tests : List String
  deriving Repr, DecidableEq

/-- The `CATEGORIES` constant (app.py lines 53-61). -/
def CATEGORIES : List (String × Category) :=
  [("al", ⟨"AL", ["ch8_regional", "ch8_national"]⟩),
   ("fs", ⟨"FS", ["ch9_regional", "ch9_national"]⟩),
   ("cf", ⟨"CF", ["ch10_regional", "ch10_national"]⟩),
   ("ae", ⟨"AE", ["ch11_regional", "ch11_national"]⟩),
   ("cp", ⟨"CP", ["ch12_13_regional", "ch12_13_national"]⟩),
   ("ws", ⟨"WS", ["ch14_regional", "ch14_national"]⟩),
   ("sp", ⟨"SP", ["ch15_regional", "ch15_national"]⟩)]

/-- `GENERAL_TEST_ID` (app.py line 64). -/
def GENERAL_TEST_ID : String := "general"

/-- One value of the user's per-category `categories` JSON mapping: either a
`dict` (with an optional `level` key and optional `expiration` key) or some
non-dict value (legacy level string etc.), which `get_proctor_tests` skips
via its `isinstance(cat_data, dict)` check. -/
inductive CatData where
  | dictData (level : Option String) (expiration : Option String)
  | otherData
  deriving Repr, DecidableEq

/-- The user fields `get_proctor_tests` reads. -/
structure User where
  role : String
  categories : List (String × CatData)
  deriving Repr, DecidableEq

/-- `'_regional' in test_id`: substring containment. -/
def containsSeq (needle hay : List Char) : Bool :=
  match hay with
  | [] => leadsWith needle []
  | _ :: rest => leadsWith needle hay || containsSeq needle rest

/-- `available_tests[test_id] = all_tests[test_id]` guarded by
`if test_id in all_tests` (the silent skip of stale test ids). -/
def includeTest (all_tests : List (String × Test))
    (avail : String → Option Test) (tid : String) : String → Option Test :=
  match List.lookup tid all_tests with
  | some t => fun x => if x = tid then some t else avail x
  | none => avail

/-- The per-test condition of the inner loop: level `"regional"` only
admits ids containing `"_regional"`; `"national"` and `"examiner"` admit
every governed id; anything else admits nothing. -/
def levelIncludes (cat_level : String) (tid : String) : Bool :=
  (cat_level == "regional" && containsSeq "_regional".toList tid.toList)
    || cat_level == "national" || cat_level == "examiner"

/-- The body of the `for cat_id, cat_data in categories.items()` loop:
skip unknown categories and non-dict data, read
`cat_data.get('level', 'regional')`, and fold the governed test ids. -/
def catStep (all_tests : List (String × Test))
    (avail : String → Option Test) (entry : String × CatData) :
    String → Option Test :=
  match List.lookup entry.1 CATEGORIES, entry.2 with
  | some cat, CatData.dictData lvl _ =>
    let cat_level := lvl.getD "regional"
    cat.tests.foldl
      (fun av tid => if levelIncludes cat_level tid then includeTest all_tests av tid else av)
      avail
  | _, _ => avail

/-- `get_proctor_tests` (app.py lines 419-449) as a pure function of the
user record and the test table; the returned dictionary is modelled as the
map `test_id → Option Test`. -/
def get_proctor_tests (user : User) (all_tests : List (String × Test))
    (include_general : Bool) : String → Option Test :=
  if user.role == "admin" then fun tid => List.lookup tid all_tests
  else
    let base : String → Option Test := fun x =>
      if include_general && x == GENERAL_TEST_ID
      then List.lookup GENERAL_TEST_ID all_tests
      else none
    user.categories.foldl (catStep all_tests) base

/-- Whether one `categories` entry makes the inner loops include `tid`
(used to characterize the fold). -/
def catIncludes (entry : String × CatData) (tid : String) : Bool :=
  match List.lookup entry.1 CATEGORIES, entry.2 with
  | some cat, CatData.dictData lvl _ =>
    cat.tests.contains tid && levelIncludes (lvl.getD "regional") tid
  | _, _ => false

/-! ## Verification stats (`jwg_dashboard`, app.py lines 1206-1231) -/

/-- The per-test verification statistics record built by `jwg_dashboard`
(only the numeric fields; name/chapter are display data). -/
structure VerStats where
  total : Nat
  verified : Nat
  percent : ℚ
  deriving Repr, DecidableEq

/-- The stats block of `jwg_dashboard` for one test: `verified` counts the
questions whose key `f"{test_id}_{q['id']}"` is among the verification
keys, and `percent = round((verified / total * 100) if total > 0 else 0, 1)`. -/
def test_stats (test_id : String) (questions : List Question)
    (verifKeys : List String) : VerStats :=
  let total := questions.length
  let verified :=
    (questions.filter (fun q => verifKeys.contains (test_id ++ "_" ++ toString q.id))).length
  { total := total
    verified := verified
    percent := pyRound1 (if 0 < total then (verified : ℚ) / (total : ℚ) * 100 else 0) }

/-! ## Concrete scenario data (spec §8 end-to-end scenario) -/

/-- Question 1 of the end-to-end scenario: the student will pick the
correct choice and a reference that normalizes to the expected one. -/
def q1C2 : Question :=
  { id := 1, question := "Q1", options := ["a", "b", "c", "d"],
    correct := 0, correct_section := "8-1.3.1".toList }

/-- Question 2 of the end-to-end scenario: the student will pick a wrong
choice but the matching reference. -/
def q2C2 : Question :=
  { id := 2, question := "Q2", options := ["a", "b", "c", "d"],
    correct := 1, correct_section := "8-2.1".toList }

/-- The 2-question test of the scenario, with its passing score a parameter. -/
def testC2 (p : Int) : Test :=
  { name := "Chapter 8 Regional", chapter := "8", passing_score := p,
    questions := [q1C2, q2C2] }

/-- The scenario's submitted choices: correct for Q1, wrong for Q2. -/
def ansC2 : Int → Option Int :=
  fun i => if i = 1 then some 0 else if i = 2 then some 0 else none

/-- The scenario's submitted references: both normalize to the expected ones. -/
def secC2 : Int → List Char :=
  fun i => if i = 1 then "8.1.3.1".toList else if i = 2 then "8-2.1".toList else []

/-! ## Claim theorems -/

/-- C1: per-question grading awards 3.5 points exactly when the submitted
choice equals the question's correct index (an absent choice never counts),
plus 0.5 exactly when the normalized submitted section equals the
normalized expected section (both empty included), so the per-question
total is one of 0, 0.5, 3.5, 4. -/
theorem c1_question_points (answers : Int → Option Int)
    (sections : Int → List Char) (q : Question) :
    (gradeQuestion answers sections q).question_points =
      (if (gradeQuestion answers sections q).is_correct then (7 : ℚ)/2 else 0) +
      (if (gradeQuestion answers sections q).is_section_correct then (1 : ℚ)/2 else 0) ∧
    ((gradeQuestion answers sections q).is_correct = true ↔
      answers q.id = some q.correct) ∧
    (answers q.id = none → (gradeQuestion answers sections q).is_correct = false) ∧
    ((gradeQuestion answers sections q).is_section_correct = true ↔
      normalize_section_ref (sections q.id) = normalize_section_ref q.correct_section) ∧
    (normalize_section_ref (sections q.id) = [] →
      normalize_section_ref q.correct_section = [] →
      (gradeQuestion answers sections q).is_section_correct = true) ∧
    ((gradeQuestion answers sections q).question_points = 0 ∨
     (gradeQuestion answers sections q).question_points = 1/2 ∨
     (gradeQuestion answers sections q).question_points = 7/2 ∨
     (gradeQuestion answers sections q).question_points = 4) := by
  refine ⟨rfl, ?_, ?_, ?_, ?_, ?_⟩
  · cases h : answers q.id with
    | none => simp [gradeQuestion, h]
    | some v => simp [gradeQuestion, h]
  · intro h
    simp [gradeQuestion, h]
  · simp [gradeQuestion]
  · intro h1 h2
    simp [gradeQuestion, h1, h2]
  · by_cases hc : (gradeQuestion answers sections q).is_correct <;>
      by_cases hs : (gradeQuestion answers sections q).is_section_correct <;>
      (simp [gradeQuestion] at hc hs ⊢; simp [hc, hs]; try norm_num)

/-- C1 witness: the characterization evaluated at a concrete submission. -/
theorem c1_question_points_witness :
    (gradeQuestion ansC2 secC2 q1C2).question_points = 0 ∨
    (gradeQuestion ansC2 secC2 q1C2).question_points = 1/2 ∨
    (gradeQuestion ansC2 secC2 q1C2).question_points = 7/2 ∨
    (gradeQuestion ansC2 secC2 q1C2).question_points = 4 :=
  (c1_question_points ansC2 secC2 q1C2).2.2.2.2.2

/-- C2 counterexample: grading the scenario (Q1 fully correct, Q2 wrong
choice with correct reference) gives 4.5 of 8 points, but the stored score
is 56.2, not the claimed 56.3: Python's one-decimal `round` is
round-half-to-even and 4.5/8*100 = 56.25 rounds down to the even digit. -/
theorem c2_scenario_score_counterexample :
    (submit_test "ch8_regional" "stu" "Student" (testC2 70) ansC2 secC2).total_points = 9/2 ∧
    (submit_test "ch8_regional" "stu" "Student" (testC2 70) ansC2 secC2).total_possible = 8 ∧
    (submit_test "ch8_regional" "stu" "Student" (testC2 70) ansC2 secC2).score = 281/5 ∧
    ((281 : ℚ)/5 ≠ 563/10) := by
  refine ⟨by decide, by decide, by decide, by decide⟩

/-- The grading aggregate of `submit_test`, written out (definitional). -/
theorem submit_test_fields (tid u s : String) (t : Test)
    (a : Int → Option Int) (sec : Int → List Char) :
    (submit_test tid u s t a sec).total_points
        = sumPoints (t.questions.map (gradeQuestion a sec)) ∧
    (submit_test tid u s t a sec).total_possible = (t.questions.length : ℚ) * 4 ∧
    (submit_test tid u s t a sec).score
        = pyRound1 (sumPoints (t.questions.map (gradeQuestion a sec))
            / ((t.questions.length : ℚ) * 4) * 100) ∧
    (submit_test tid u s t a sec).passed
        = decide (pyRound1 (sumPoints (t.questions.map (gradeQuestion a sec))
            / ((t.questions.length : ℚ) * 4) * 100) ≥ (t.passing_score : ℚ)) :=
  ⟨rfl, rfl, rfl, rfl⟩

/-- C2 amended: the scenario yields points 4.5 of possible 8, score
round(56.25, 1) = 56.2 (round-half-to-even), and passed exactly when
56.2 >= passing_score, for every passing score. -/
theorem c2_scenario_score (p : Int) :
    (submit_test "ch8_regional" "stu" "Student" (testC2 p) ansC2 secC2).total_points = 9/2 ∧
    (submit_test "ch8_regional" "stu" "Student" (testC2 p) ansC2 secC2).total_possible = 8 ∧
    (submit_test "ch8_regional" "stu" "Student" (testC2 p) ansC2 secC2).score = 281/5 ∧
    ((submit_test "ch8_regional" "stu" "Student" (testC2 p) ansC2 secC2).passed = true
      ↔ (p : ℚ) ≤ 281/5) := by
  obtain ⟨h1, h2, h3, h4⟩ :=
    submit_test_fields "ch8_regional" "stu" "Student" (testC2 p) ansC2 secC2
  have hq : (testC2 p).questions = [q1C2, q2C2] := rfl
  rw [hq] at h1 h2 h3 h4
  have hpts : sumPoints ([q1C2, q2C2].map (gradeQuestion ansC2 secC2)) = 9/2 := by decide
  have hsc : pyRound1 (sumPoints ([q1C2, q2C2].map (gradeQuestion ansC2 secC2))
      / (([q1C2, q2C2].length : ℚ) * 4) * 100) = 281/5 := by decide
  refine ⟨by rw [h1, hpts], by rw [h2]; decide, by rw [h3, hsc], ?_⟩
  rw [h4, decide_eq_true_iff]
  constructor
  · intro h
    calc (p : ℚ) ≤ _ := h
    _ = 281/5 := hsc
  · intro h
    rw [hsc]
    exact h

/-- C7: the label-stripping loop does NOT strip the label `"chapter"`: the
entry `'ch'` precedes `'chapter'` in the `prefixes` list and the loop keeps
going after a match, so `"chapter 5"` loses only `"ch"` and normalizes to
`"apter5"`, different from `"5"`; moreover a second label can be removed
from the remainder (`"sec ch 5"` normalizes to `"5"`). -/
theorem c7_label_loop_behavior :
    normalize_section_ref "chapter 5".toList = "apter5".toList ∧
    normalize_section_ref "5".toList = "5".toList ∧
    normalize_section_ref "chapter 5".toList ≠ normalize_section_ref "5".toList ∧
    normalize_section_ref "sec ch 5".toList = "5".toList := by
  refine ⟨by decide, by decide, by decide, by decide⟩

/-- C8: the separator-removal step only deletes whitespace, periods,
hyphens and underscores; other non-alphanumeric characters (here a comma
in the interior) survive normalization, contradicting the
"keep only alphanumeric" description. -/
theorem c8_nonalnum_survives :
    normalize_section_ref "1,2".toList = "1,2".toList ∧
    (normalize_section_ref "1,2".toList).all Char.isAlphanum = false := by
  refine ⟨by decide, by decide⟩

/-- `pyRound1` fixes zero. -/
theorem pyRound1_zero : pyRound1 0 = 0 := by decide

/-- C9: verification stats compute `percent = round(verified/total*100, 1)`
when the test has questions, and 0 (rather than a division error) when it
has none. -/
theorem c9_stats_percent (test_id : String) (questions : List Question)
    (verifKeys : List String) :
    (questions.length = 0 → (test_stats test_id questions verifKeys).percent = 0) ∧
    (0 < questions.length →
      (test_stats test_id questions verifKeys).percent =
        pyRound1 (((test_stats test_id questions verifKeys).verified : ℚ)
          / ((test_stats test_id questions verifKeys).total : ℚ) * 100)) := by
  constructor
  · intro h
    simp [test_stats, h, pyRound1_zero]
  · intro h
    simp [test_stats, h]

/-- C9 witness: a test with 0 questions reports percent 0. -/
theorem c9_stats_percent_witness :
    (test_stats "ch8_regional" [] []).percent = 0 :=
  (c9_stats_percent "ch8_regional" [] []).1 rfl

/-! ## Lemmas about the approval loop -/

/-- The loop's match condition, in propositional form. -/
theorem approve_matchCond_iff (qid : Int) (r : QuestionResult) :
    (r.id == qid && !r.is_section_correct) = true ↔
      (r.id = qid ∧ r.is_section_correct = false) := by
  simp [Bool.and_eq_true, beq_iff_eq, Bool.not_eq_true']

/-- The loop reports failure exactly when no entry matches. -/
theorem approveEntry_eq_none_iff (ap : String) (qid : Int)
    (l : List QuestionResult) :
    approveEntry ap qid l = none ↔
      ∀ r ∈ l, ¬(r.id = qid ∧ r.is_section_correct = false) := by
  induction l with
  | nil => simp [approveEntry]
  | cons r rest ih =>
    cases hc : (r.id == qid && !r.is_section_correct) with
    | true =>
      simp only [approveEntry, hc, if_true]
      simp only [List.mem_cons]
      constructor
      · intro h
        exact absurd h (by simp)
      · intro h
        exact absurd ((approve_matchCond_iff qid r).mp hc)
          (h r (Or.inl rfl))
    | false =>
      simp only [approveEntry, hc, Bool.false_eq_true, if_false]
      have hr : ¬(r.id = qid ∧ r.is_section_correct = false) := by
        intro hcon
        rw [(approve_matchCond_iff qid r).mpr hcon] at hc
        exact Bool.true_eq_false.mp hc
      cases hrest : approveEntry ap qid rest with
      | some rest' =>
        simp only [List.mem_cons]
        constructor
        · intro h
          exact absurd h (by simp)
        · intro h
          rw [ih.mpr (fun e he => h e (Or.inr he))] at hrest
          exact absurd hrest (by simp)
      | none =>
        simp only [List.mem_cons]
        constructor
        · intro _ e he
          rcases he with he | he
          · rw [he]; exact hr
          · exact (ih.mp hrest) e he
        · intro _
          trivial

/-- Success decomposition of the approval loop: the updated list differs
from the original exactly at the first matching entry, which gets the
`approvedEntry` mutation. -/
theorem approveEntry_eq_some (ap : String) (qid : Int)
    (l l' : List QuestionResult) (h : approveEntry ap qid l = some l') :
    ∃ l₁ r l₂, l = l₁ ++ r :: l₂ ∧ r.id = qid ∧ r.is_section_correct = false ∧
      (∀ e ∈ l₁, ¬(e.id = qid ∧ e.is_section_correct = false)) ∧
      l' = l₁ ++ approvedEntry ap r :: l₂ := by
  induction l generalizing l' with
  | nil => exact absurd h (by simp [approveEntry])
  | cons r rest ih =>
    cases hc : (r.id == qid && !r.is_section_correct) with
    | true =>
      simp only [approveEntry, hc, if_true, Option.some_inj] at h
      obtain ⟨hid, hflag⟩ := (approve_matchCond_iff qid r).mp hc
      exact ⟨[], r, rest, rfl, hid, hflag, by simp, h.symm⟩
    | false =>
      simp only [approveEntry, hc, Bool.false_eq_true, if_false] at h
      have hr : ¬(r.id = qid ∧ r.is_section_correct = false) := by
        intro hcon
        rw [(approve_matchCond_iff qid r).mpr hcon] at hc
        exact Bool.true_eq_false.mp hc
      cases hrest : approveEntry ap qid rest with
      | none =>
        rw [hrest] at h
        exact absurd h (by simp)
      | some rest' =>
        rw [hrest] at h
        simp only [Option.some_inj] at h
        obtain ⟨l₁, e, l₂, hdec, hid, hflag, hmin, hres⟩ := ih rest' hrest
        refine ⟨r :: l₁, e, l₂, by rw [hdec]; rfl, hid, hflag, ?_, ?_⟩
        · intro e' he'
          rcases List.mem_cons.mp he' with he' | he'
          · rw [he']; exact hr
          · exact hmin e' he'
        · rw [← h, hres]
          rfl

/-- Replacing the matched entry by its approved version adds exactly half
a point to the sum of entry points. -/
theorem sumPoints_approved (ap : String) (l₁ l₂ : List QuestionResult)
    (r : QuestionResult) :
    sumPoints (l₁ ++ approvedEntry ap r :: l₂)
      = sumPoints (l₁ ++ r :: l₂) + 1/2 := by
  simp only [sumPoints, List.map_append, List.map_cons, List.sum_append,
    List.sum_cons, approvedEntry]
  ring

/-- C3: on a non-passing result, approving a question whose section flag is
false flips exactly that (first matching) entry's flag, adds 0.5 to its
points, recomputes `total_points` as the sum of all entries' points and
`score`/`passed` by the grading formula with the stored `total_possible`
and `passing_score`, and the route persists the update under the original
result id. -/
theorem c3_approve_success (approver : String) (result : TestResult)
    (qid : Int) (hpass : result.passed = false)
    (hex : ∃ r ∈ result.results, r.id = qid ∧ r.is_section_correct = false) :
    ∃ r', approve_reference approver result qid = Except.ok r' ∧
      (∃ l₁ r l₂, result.results = l₁ ++ r :: l₂ ∧
        r.id = qid ∧ r.is_section_correct = false ∧
        (∀ e ∈ l₁, ¬(e.id = qid ∧ e.is_section_correct = false)) ∧
        r'.results = l₁ ++ approvedEntry approver r :: l₂) ∧
      r'.total_points = sumPoints r'.results ∧
      r'.total_points = sumPoints result.results + 1/2 ∧
      r'.total_possible = result.total_possible ∧
      r'.passing_score = result.passing_score ∧
      r'.score = pyRound1 (r'.total_points / result.total_possible * 100) ∧
      (r'.passed = true ↔ (result.passing_score : ℚ) ≤ r'.score) ∧
      (∀ store rid, store rid = some result →
        approve_reference_route approver qid store rid
          = fun x => if x = rid then some r' else store x) := by
  cases happ : approveEntry approver qid result.results with
  | none =>
    obtain ⟨r, hr, hcon⟩ := hex
    exact absurd hcon
      (((approveEntry_eq_none_iff approver qid result.results).mp happ) r hr)
  | some results' =>
    have hok : approve_reference approver result qid = Except.ok
        { result with
          results := results'
          total_points := sumPoints results'
          score := pyRound1 (sumPoints results' / result.total_possible * 100)
          passed := decide (pyRound1 (sumPoints results' / result.total_possible * 100)
            ≥ (result.passing_score : ℚ)) } := by
      rw [approve_reference, if_neg (by rw [hpass]; exact Bool.false_ne_true), happ]
    obtain ⟨l₁, r, l₂, hdec, hid, hflag, hmin, hres⟩ :=
      approveEntry_eq_some approver qid result.results results' happ
    refine ⟨_, hok, ⟨l₁, r, l₂, hdec, hid, hflag, hmin, hres⟩,
      rfl, ?_, rfl, rfl, rfl, ?_, ?_⟩
    · show sumPoints results' = sumPoints result.results + 1/2
      rw [hres, hdec]
      exact sumPoints_approved approver l₁ l₂ r
    · show decide (_ ≥ ((result.passing_score : ℚ))) = true ↔ _
      simp [decide_eq_true_iff, ge_iff_le]
    · intro store rid hsr
      simp only [approve_reference_route, hsr, hok]

/-- A concrete non-passing result used to witness C3 (one fully-correct
question, one with wrong choice and wrong reference). -/
def resC3 : TestResult :=
  { student := "Student", username := "stu", test_id := "ch8_regional",
    test_name := "Chapter 8 Regional", score := 175/4, total_points := 7/2,
    total_possible := 8, total_questions := 2, passing_score := 70,
    passed := false,
    results :=
      [{ id := 1, question := "Q1", user_answer := some 0, correct_answer := 0,
         is_correct := true, user_section := "8.1".toList,
         correct_section := "8-1".toList, is_section_correct := true,
         question_points := 4, options := ["a", "b", "c", "d"],
         section_approved_by := none },
       { id := 2, question := "Q2", user_answer := some 2, correct_answer := 1,
         is_correct := false, user_section := "9.9".toList,
         correct_section := "8-2".toList, is_section_correct := false,
         question_points := 0, options := ["a", "b", "c", "d"],
         section_approved_by := none }] }

/-- C3 witness: approving question 2 of the concrete non-passing result
succeeds. -/
theorem c3_approve_success_witness :
    ∃ r', approve_reference "proctor1" resC3 2 = Except.ok r' := by
  obtain ⟨r', hok, _⟩ := c3_approve_success "proctor1" resC3 2 rfl (by decide)
  exact ⟨r', hok⟩

/-- C4: approving on a passing result, or naming a question id with no
not-yet-approved entry (absent id, or section already correct), reports an
error and persists nothing: the store is unchanged. -/
theorem c4_approve_rejected (approver : String) (result : TestResult)
    (qid : Int)
    (h : result.passed = true ∨
      ∀ r ∈ result.results, ¬(r.id = qid ∧ r.is_section_correct = false)) :
    (∃ msg, approve_reference approver result qid = Except.error msg) ∧
    (∀ store rid, store rid = some result →
      approve_reference_route approver qid store rid = store) := by
  have herr : ∃ msg, approve_reference approver result qid = Except.error msg := by
    cases hp : result.passed with
    | true =>
      exact ⟨_, by rw [approve_reference, if_pos hp]⟩
    | false =>
      rcases h with h | h
      · rw [h] at hp
        exact absurd hp (by decide)
      · exact ⟨_, by
          rw [approve_reference, if_neg (by rw [hp]; exact Bool.false_ne_true),
            (approveEntry_eq_none_iff approver qid result.results).mpr h]⟩
  obtain ⟨msg, hmsg⟩ := herr
  refine ⟨⟨msg, hmsg⟩, ?_⟩
  intro store rid hsr
  simp only [approve_reference_route, hsr, hmsg]

/-- A concrete passing result used to witness C4. -/
def resC4 : TestResult :=
  { resC3 with
    score := 100
    total_points := 8
    passed := true
    results := [] }

/-- A concrete one-entry store holding the passing result. -/
def storeC4 : String → Option TestResult :=
  fun x => if x = "abc12345" then some resC4 else none

/-- C4 witness: approving on the passing result errors and leaves the
store unchanged. -/
theorem c4_approve_rejected_witness :
    (∃ msg, approve_reference "proctor1" resC4 2 = Except.error msg) ∧
    approve_reference_route "proctor1" 2 storeC4 "abc12345" = storeC4 :=
  ⟨(c4_approve_rejected "proctor1" resC4 2 (Or.inl rfl)).1,
   (c4_approve_rejected "proctor1" resC4 2 (Or.inl rfl)).2 storeC4 "abc12345" rfl⟩

/-! ## Lemmas about the access resolver -/

/-- Pointwise value of the inner (per-governed-test-id) loop of
`get_proctor_tests`. -/
theorem testsFold_apply (all_tests : List (String × Test)) (lvl : String)
    (tests : List String) (av : String → Option Test) (tid : String) :
    (tests.foldl
      (fun av t => if levelIncludes lvl t then includeTest all_tests av t else av)
      av) tid
      = if tests.contains tid && levelIncludes lvl tid
            && (List.lookup tid all_tests).isSome
        then List.lookup tid all_tests
        else av tid := by
  induction tests generalizing av with
  | nil => simp
  | cons t ts ih =>
    rw [List.foldl_cons, ih]
    by_cases ht : t = tid
    · subst ht
      cases hl : levelIncludes lvl t with
      | true =>
        cases hlk : List.lookup t all_tests with
        | some x => simp [includeTest, hlk, hl]
        | none => simp [includeTest, hlk, hl]
      | false => simp [hl]
    · have htt : tid ≠ t := fun h => ht h.symm
      have hbt : (tid == t) = false := beq_eq_false_iff_ne.mpr htt
      cases hl : levelIncludes lvl t with
      | true =>
        simp only [List.contains_cons, hbt, Bool.false_or]
        cases hlk : List.lookup t all_tests with
        | some x => simp [includeTest, hlk, htt]
        | none => simp [includeTest, hlk]
      | false =>
        simp only [List.contains_cons, hbt, Bool.false_or]
        simp [hl]

/-- Pointwise value of the outer (per-category) loop of `get_proctor_tests`. -/
theorem catFold_apply (all_tests : List (String × Test))
    (cats : List (String × CatData)) (base : String → Option Test)
    (tid : String) :
    (cats.foldl (catStep all_tests) base) tid
      = if cats.any (fun e => catIncludes e tid)
            && (List.lookup tid all_tests).isSome
        then List.lookup tid all_tests
        else base tid := by
  induction cats generalizing base with
  | nil => simp
  | cons e es ih =>
    rw [List.foldl_cons, ih]
    rcases e with ⟨cid, cd⟩
    cases hcat : List.lookup cid CATEGORIES with
    | none =>
      have hstep : catStep all_tests base (cid, cd) = base := by
        cases cd <;> simp [catStep, hcat]
      have hci : catIncludes (cid, cd) tid = false := by
        cases cd <;> simp [catIncludes, hcat]
      rw [hstep]
      simp only [List.any_cons, hci, Bool.false_or]
    | some cat =>
      cases cd with
      | otherData =>
        have hstep : catStep all_tests base (cid, CatData.otherData) = base := by
          simp [catStep, hcat]
        have hci : catIncludes (cid, CatData.otherData) tid = false := by
          simp [catIncludes, hcat]
        rw [hstep]
        simp only [List.any_cons, hci, Bool.false_or]
      | dictData lvl e2 =>
        have hstep : catStep all_tests base (cid, CatData.dictData lvl e2)
            = cat.tests.foldl
              (fun av t => if levelIncludes (lvl.getD "regional") t
                then includeTest all_tests av t else av) base := by
          simp [catStep, hcat]
        rw [hstep, testsFold_apply]
        have hci : catIncludes (cid, CatData.dictData lvl e2) tid
            = (cat.tests.contains tid
                && levelIncludes (lvl.getD "regional") tid) := by
          simp [catIncludes, hcat]
        by_cases ha : es.any (fun e => catIncludes e tid) = true
        · by_cases hi : (List.lookup tid all_tests).isSome = true
          · simp [ha, hi, List.any_cons]
          · simp only [Bool.not_eq_true] at hi
            simp [ha, hi, List.any_cons]
        · simp only [Bool.not_eq_true] at ha
          rw [if_neg (by rw [ha, Bool.false_and]; exact Bool.false_ne_true)]
          simp only [List.any_cons, hci, ha, Bool.or_false, Bool.and_assoc]

/-- C5: for a non-admin user, the resolved test map contains exactly the
test ids admitted by some certified category's level rule — level
`"regional"` admits only governed ids containing `"_regional"`, levels
`"national"`/`"examiner"` admit all governed ids, any other level admits
none (see `levelIncludes`/`catIncludes`) — restricted to ids present in
`all_tests` (ids absent from it are silently skipped), plus the general
test when requested and present. -/
theorem c5_proctor_test_resolution (user : User)
    (all_tests : List (String × Test)) (include_general : Bool)
    (tid : String) (hrole : user.role ≠ "admin") :
    get_proctor_tests user all_tests include_general tid
      = if user.categories.any (fun e => catIncludes e tid)
            && (List.lookup tid all_tests).isSome
        then List.lookup tid all_tests
        else if include_general && tid == GENERAL_TEST_ID
        then List.lookup GENERAL_TEST_ID all_tests
        else none := by
  have hr : (user.role == "admin") = false := beq_eq_false_iff_ne.mpr hrole
  simp only [get_proctor_tests, hr, Bool.false_eq_true, if_false]
  rw [catFold_apply]

/-- The concrete non-admin user for the C5 witness: regional AL rating. -/
def userC5 : User :=
  { role := "proctor", categories := [("al", CatData.dictData (some "regional") none)] }

/-- A small concrete test table for the C5 witness. -/
def testsC5 : List (String × Test) :=
  [("general", ⟨"General", "0", 80, []⟩),
   ("ch8_regional", ⟨"Chapter 8 Regional", "8", 70, []⟩),
   ("ch8_national", ⟨"Chapter 8 National", "8", 80, []⟩)]

/-- C5 witness: the regional AL proctor resolves the regional chapter-8
test (and the characterization evaluates concretely). -/
theorem c5_proctor_test_resolution_witness :
    get_proctor_tests userC5 testsC5 true "ch8_regional"
      = some ⟨"Chapter 8 Regional", "8", 70, []⟩ := by
  rw [c5_proctor_test_resolution userC5 testsC5 true "ch8_regional" (by decide)]
  decide

/-- C10: a certification entry that is a mapping without a `level` key is
treated as level `"regional"` (the `cat_data.get('level', 'regional')`
default): resolution behaves exactly as if the level were `"regional"`,
and in particular the governed regional-variant tests present in
`all_tests` are included rather than nothing. -/
theorem c10_missing_level_defaults (role : String) (hrole : role ≠ "admin")
    (pre post : List (String × CatData)) (cid : String) (e : Option String)
    (all_tests : List (String × Test)) (include_general : Bool) (tid : String) :
    get_proctor_tests ⟨role, pre ++ (cid, CatData.dictData none e) :: post⟩
        all_tests include_general tid
      = get_proctor_tests ⟨role, pre ++ (cid, CatData.dictData (some "regional") e) :: post⟩
          all_tests include_general tid ∧
    (∀ cat t, List.lookup cid CATEGORIES = some cat → tid ∈ cat.tests →
      containsSeq "_regional".toList tid.toList = true →
      List.lookup tid all_tests = some t →
      get_proctor_tests ⟨role, pre ++ (cid, CatData.dictData none e) :: post⟩
          all_tests include_general tid = some t) := by
  have hce : catIncludes (cid, CatData.dictData none e) tid
      = catIncludes (cid, CatData.dictData (some "regional") e) tid := by
    cases hcs : List.lookup cid CATEGORIES with
    | none => simp [catIncludes, hcs]
    | some cat => simp [catIncludes, hcs]
  constructor
  · rw [c5_proctor_test_resolution _ _ _ _ hrole,
      c5_proctor_test_resolution _ _ _ _ hrole]
    simp only [List.any_append, List.any_cons, hce]
  · intro cat t hcat hmem hsub hlk
    rw [c5_proctor_test_resolution _ _ _ _ hrole]
    have hinc : catIncludes (cid, CatData.dictData none e) tid = true := by
      have hsub' : containsSeq ['_', 'r', 'e', 'g', 'i', 'o', 'n', 'a', 'l'] tid.data
          = true := hsub
      simp [catIncludes, hcat, levelIncludes, hsub', hmem]
    have hany : (pre ++ (cid, CatData.dictData none e) :: post).any
        (fun en => catIncludes en tid) = true := by
      simp only [List.any_append, List.any_cons, hinc]
      simp
    rw [if_pos (by rw [hany, hlk]; rfl), hlk]

/-- C10 witness: a level-less AL rating still resolves the regional
chapter-8 test. -/
theorem c10_missing_level_defaults_witness :
    get_proctor_tests ⟨"proctor", [("al", CatData.dictData none none)]⟩
        testsC5 true "ch8_regional"
      = some ⟨"Chapter 8 Regional", "8", 70, []⟩ :=
  (c10_missing_level_defaults "proctor" (by decide) [] []
      "al" none testsC5 true "ch8_regional").2
    ⟨"AL", ["ch8_regional", "ch8_national"]⟩
    ⟨"Chapter 8 Regional", "8", 70, []⟩
    (by decide) (by decide) (by decide) (by decide)

/-! ## Lemmas about the normalizer (towards C6) -/

/-- A character of `l.dropWhile p` is a character of `l`. -/
theorem mem_of_mem_dropWhile (p : Char → Bool) (l : List Char) (c : Char)
    (h : c ∈ l.dropWhile p) : c ∈ l := by
  induction l with
  | nil => simp at h
  | cons a as ih =>
    cases ha : p a with
    | true =>
      rw [List.dropWhile_cons, if_pos ha] at h
      exact List.mem_cons_of_mem a (ih h)
    | false =>
      rw [List.dropWhile_cons, if_neg (by rw [ha]; exact Bool.false_ne_true)] at h
      exact h

/-- A character of `rstripBy p l` is a character of `l`. -/
theorem mem_of_mem_rstripBy (p : Char → Bool) (l : List Char) (c : Char)
    (h : c ∈ rstripBy p l) : c ∈ l := by
  rw [rstripBy, List.mem_reverse] at h
  exact List.mem_reverse.mp (mem_of_mem_dropWhile p l.reverse c h)

/-- `dropWhile` does nothing when no character satisfies the predicate. -/
theorem dropWhile_eq_self_of (p : Char → Bool) (l : List Char)
    (h : ∀ c ∈ l, p c = false) : l.dropWhile p = l := by
  cases l with
  | nil => rfl
  | cons a as =>
    rw [List.dropWhile_cons,
      if_neg (by rw [h a (List.mem_cons_self a as)]; exact Bool.false_ne_true)]

/-- `rstripBy` does nothing when no character satisfies the predicate. -/
theorem rstripBy_eq_self_of (p : Char → Bool) (l : List Char)
    (h : ∀ c ∈ l, p c = false) : rstripBy p l = l := by
  rw [rstripBy,
    dropWhile_eq_self_of p l.reverse (fun c hc => h c (List.mem_reverse.mp hc)),
    List.reverse_reverse]

/-- `strip()` does nothing on a string with no whitespace. -/
theorem stripWS_eq_self_of (l : List Char)
    (h : ∀ c ∈ l, isPySpace c = false) : stripWS l = l := by
  rw [stripWS, dropWhile_eq_self_of _ _ h, rstripBy_eq_self_of _ _ h]

/-- `map` does nothing when the function fixes every character. -/
theorem map_eq_self_of (f : Char → Char) (l : List Char)
    (h : ∀ c ∈ l, f c = c) : l.map f = l := by
  induction l with
  | nil => rfl
  | cons a as ih =>
    rw [List.map_cons, h a (List.mem_cons_self a as),
      ih (fun c hc => h c (List.mem_cons_of_mem a hc))]

/-- `filter` does nothing when every character passes. -/
theorem filter_eq_self_of (p : Char → Bool) (l : List Char)
    (h : ∀ c ∈ l, p c = true) : l.filter p = l := by
  induction l with
  | nil => rfl
  | cons a as ih =>
    rw [List.filter_cons, if_pos (h a (List.mem_cons_self a as)),
      ih (fun c hc => h c (List.mem_cons_of_mem a hc))]

/-- `dropWhile` is idempotent. -/
theorem dropWhile_idem (p : Char → Bool) (l : List Char) :
    (l.dropWhile p).dropWhile p = l.dropWhile p := by
  induction l with
  | nil => rfl
  | cons a as ih =>
    cases ha : p a with
    | true =>
      rw [List.dropWhile_cons, if_pos ha, ih]
    | false =>
      rw [List.dropWhile_cons, if_neg (by rw [ha]; exact Bool.false_ne_true),
        List.dropWhile_cons, if_neg (by rw [ha]; exact Bool.false_ne_true)]

/-- `rstripBy` is idempotent (hence `rstrip('.,;:')` is). -/
theorem rstripBy_idem (p : Char → Bool) (l : List Char) :
    rstripBy p (rstripBy p l) = rstripBy p l := by
  unfold rstripBy
  rw [List.reverse_reverse, dropWhile_idem]

/-- `startswith` is monotone: a longer needle matching implies any of its
own leading parts match. -/
theorem leadsWith_mono (xs ys l : List Char)
    (h : leadsWith (xs ++ ys) l = true) : leadsWith xs l = true := by
  induction xs generalizing l with
  | nil => rfl
  | cons a as ih =>
    cases l with
    | nil => simp [leadsWith] at h
    | cons b bs =>
      simp only [List.cons_append, leadsWith, Bool.and_eq_true] at h ⊢
      exact ⟨h.1, ih bs h.2⟩

/-- Contrapositive form of `leadsWith_mono`. -/
theorem leadsWith_ext_false (xs ys l : List Char)
    (h : leadsWith xs l = false) : leadsWith (xs ++ ys) l = false := by
  cases hq : leadsWith (xs ++ ys) l with
  | false => rfl
  | true =>
    rw [leadsWith_mono xs ys l hq] at h
    exact absurd h (by decide)

/-- One label-stripping step does nothing when the label does not match. -/
theorem stripOneLabel_id (s p : List Char) (h : leadsWith p s = false) :
    stripOneLabel s p = s := by
  unfold stripOneLabel
  rw [if_neg (by rw [h]; exact Bool.false_ne_true)]

/-- The whole label loop does nothing when the string starts with neither
`"sec"` nor `"ch"` (every entry of the label list extends one of those). -/
theorem stripLabels_eq_self (y : List Char)
    (h1 : leadsWith ['s', 'e', 'c'] y = false)
    (h2 : leadsWith ['c', 'h'] y = false) :
    stripLabels y = y := by
  have l1 : leadsWith ['s', 'e', 'c', 't', 'i', 'o', 'n'] y = false :=
    leadsWith_ext_false ['s', 'e', 'c'] ['t', 'i', 'o', 'n'] y h1
  have l2 : leadsWith ['s', 'e', 'c', '.'] y = false :=
    leadsWith_ext_false ['s', 'e', 'c'] ['.'] y h1
  have l3 : leadsWith ['c', 'h', '.'] y = false :=
    leadsWith_ext_false ['c', 'h'] ['.'] y h2
  have l4 : leadsWith ['c', 'h', 'a', 'p', 't', 'e', 'r'] y = false :=
    leadsWith_ext_false ['c', 'h'] ['a', 'p', 't', 'e', 'r'] y h2
  rw [stripLabels, LABELS]
  simp only [List.foldl_cons, List.foldl_nil]
  rw [stripOneLabel_id _ _ l1, stripOneLabel_id _ _ l2, stripOneLabel_id _ _ h1,
    stripOneLabel_id _ _ l3, stripOneLabel_id _ _ h2, stripOneLabel_id _ _ l4]

/-- A character of the label loop's output is a character of its input. -/
theorem mem_of_mem_stripOneLabel (s p : List Char) (c : Char)
    (h : c ∈ stripOneLabel s p) : c ∈ s := by
  unfold stripOneLabel at h
  by_cases hp : leadsWith p s = true
  · rw [if_pos hp, stripWS] at h
    exact List.mem_of_mem_drop
      (mem_of_mem_dropWhile _ _ c (mem_of_mem_rstripBy _ _ c h))
  · rw [if_neg hp] at h
    exact h

/-- A character of `stripLabels s` is a character of `s`. -/
theorem mem_of_mem_stripLabels (s : List Char) (c : Char)
    (h : c ∈ stripLabels s) : c ∈ s := by
  have general : ∀ (ps : List (List Char)) (s : List Char),
      c ∈ ps.foldl stripOneLabel s → c ∈ s := by
    intro ps
    induction ps with
    | nil => exact fun s h => h
    | cons p ps ih =>
      intro s h
      exact mem_of_mem_stripOneLabel s p c (ih _ h)
  exact general LABELS s h

/-- `Char.toLower` never produces a basic-latin capital. -/
theorem toLower_not_upper (c : Char) :
    ¬(65 ≤ (Char.toLower c).toNat ∧ (Char.toLower c).toNat ≤ 90) := by
  intro hcon
  simp only [Char.toLower, ge_iff_le] at hcon
  by_cases h : 65 ≤ c.toNat ∧ c.toNat ≤ 90
  · rw [if_pos h] at hcon
    have hv : Nat.isValidChar (c.toNat + 32) := Or.inl (by omega)
    have ht : (Char.ofNat (c.toNat + 32)).toNat = c.toNat + 32 := by
      rw [Char.ofNat, dif_pos hv]
      rfl
    rw [ht] at hcon
    omega
  · rw [if_neg h] at hcon
    exact h hcon

/-- `Char.toLower` is idempotent. -/
theorem toLower_toLower (c : Char) :
    Char.toLower (Char.toLower c) = Char.toLower c := by
  generalize hgen : Char.toLower c = d
  have hd : ¬(65 ≤ d.toNat ∧ d.toNat ≤ 90) := by
    rw [← hgen]
    exact toLower_not_upper c
  simp only [Char.toLower, ge_iff_le]
  rw [if_neg hd]

/-- The dash-folding map is idempotent. -/
theorem dashToHyphen_fix (c : Char) :
    dashToHyphen (dashToHyphen c) = dashToHyphen c := by
  by_cases h : (c == '–' || c == '—' || c == '−') = true
  · have hin : dashToHyphen c = '-' := by
      unfold dashToHyphen
      rw [if_pos h]
    rw [hin]
    decide
  · have hin : dashToHyphen c = c := by
      unfold dashToHyphen
      rw [if_neg h]
    rw [hin]
    exact hin

/-- The dash-folding map produces lowercase-fixed characters from
lowercase-fixed characters. -/
theorem toLower_dashToHyphen (d : Char) (hd : Char.toLower d = d) :
    Char.toLower (dashToHyphen d) = dashToHyphen d := by
  by_cases h : (d == '–' || d == '—' || d == '−') = true
  · have hin : dashToHyphen d = '-' := by
      unfold dashToHyphen
      rw [if_pos h]
    rw [hin]
    decide
  · have hin : dashToHyphen d = d := by
      unfold dashToHyphen
      rw [if_neg h]
    rw [hin]
    exact hd

/-- Splitting `removeSep c = false` into its four components. -/
theorem removeSep_false (c : Char) (h : removeSep c = false) :
    isPySpace c = false ∧ (c == '.') = false
      ∧ (c == '-') = false ∧ (c == '_') = false := by
  unfold removeSep at h
  simp only [Bool.or_eq_false_iff] at h
  exact ⟨h.1.1.1, h.1.1.2, h.1.2, h.2⟩

/-- Every character surviving normalization is separator-free, dash-fixed
and lowercase-fixed. -/
theorem normalize_chars (l : List Char) :
    ∀ c ∈ normalize_section_ref l,
      removeSep c = false ∧ dashToHyphen c = c ∧ Char.toLower c = c := by
  intro c hc
  by_cases hl : l = []
  · rw [hl] at hc
    simp [normalize_section_ref] at hc
  · simp only [normalize_section_ref, if_neg hl] at hc
    have hc2 := mem_of_mem_rstripBy _ _ _ hc
    have hmf := List.mem_filter.mp hc2
    have hkeep : (!removeSep c) = true := hmf.2
    have hc3 := hmf.1
    obtain ⟨d, hd, hdc⟩ := List.mem_map.mp hc3
    have hd2 := mem_of_mem_stripLabels _ _ hd
    obtain ⟨e, _, hed⟩ := List.mem_map.mp hd2
    refine ⟨by simpa using hkeep, ?_, ?_⟩
    · rw [← hdc]
      exact dashToHyphen_fix d
    · rw [← hdc]
      exact toLower_dashToHyphen d (by rw [← hed]; exact toLower_toLower e)

/-- The normalizer fixes any string made only of separator-free,
dash-fixed, lowercase-fixed characters, already right-stripped, that does
not start with a recognized label. -/
theorem normalize_eq_self (y : List Char)
    (hprops : ∀ c ∈ y, removeSep c = false ∧ dashToHyphen c = c ∧ Char.toLower c = c)
    (h1 : leadsWith ['s', 'e', 'c'] y = false)
    (h2 : leadsWith ['c', 'h'] y = false)
    (htrail : rstripBy isTrailPunct y = y) :
    normalize_section_ref y = y := by
  by_cases hy : y = []
  · rw [hy]
    rfl
  · simp only [normalize_section_ref, if_neg hy]
    rw [stripWS_eq_self_of y (fun c hc => (removeSep_false c (hprops c hc).1).1),
      map_eq_self_of _ y (fun c hc => (hprops c hc).2.2),
      stripLabels_eq_self y h1 h2,
      map_eq_self_of _ y (fun c hc => (hprops c hc).2.1),
      filter_eq_self_of _ y (fun c hc => by rw [(hprops c hc).1]; rfl)]
    exact htrail

/-- C6 counterexample: `normalize` is NOT idempotent.  On `"s e c 5"` the
separator removal glues `s`, `e`, `c` into a fresh leading `"sec"` label,
so a second pass strips it: first pass gives `"sec5"`, second `"5"`. -/
theorem c6_not_idempotent :
    normalize_section_ref "s e c 5".toList = "sec5".toList ∧
    normalize_section_ref (normalize_section_ref "s e c 5".toList) = "5".toList ∧
    normalize_section_ref (normalize_section_ref "s e c 5".toList)
      ≠ normalize_section_ref "s e c 5".toList := by
  refine ⟨by decide, by decide, by decide⟩

/-- C6 amended: `normalize` is idempotent on every input whose normalized
form does not begin with `"sec"` or `"ch"` (the only way a second pass can
act is the label loop firing on a label created by separator removal). -/
theorem c6_idempotent_unless_fresh_label (x : List Char)
    (h1 : leadsWith ['s', 'e', 'c'] (normalize_section_ref x) = false)
    (h2 : leadsWith ['c', 'h'] (normalize_section_ref x) = false) :
    normalize_section_ref (normalize_section_ref x) = normalize_section_ref x := by
  by_cases hx : x = []
  · rw [hx]
    rfl
  · refine normalize_eq_self _ (normalize_chars x) h1 h2 ?_
    simp only [normalize_section_ref, if_neg hx]
    exact rstripBy_idem _ _

/-- C6 witness: idempotence at a typical citation. -/
theorem c6_idempotent_unless_fresh_label_witness :
    normalize_section_ref (normalize_section_ref "Section 8-1.3.1".toList)
      = normalize_section_ref "Section 8-1.3.1".toList :=
  c6_idempotent_unless_fresh_label "Section 8-1.3.1".toList (by decide) (by decide)

end JudgeTest
